import Mathlib

/-!
# Verification of the Kando editor sidebar (`src/renderer/editor/sidebar/sidebar.ts`)

This file gives a shallow embedding of the two stateful cores of the sidebar
component:

* the **visibility controller** (`setVisibility`, its wiring to the settings
  store key `sidebarVisible`, and the three `visible`-class toggles on the
  panel area and the show/hide buttons), and
* the **playback lifecycle manager** for the five introduction videos
  (the one-shot `show.bs.collapse` listener that resolves the video elements,
  the `shown.bs.collapse` / `hidden.bs.collapse` handlers, and the
  `slide.bs.carousel` handler).

The embedding follows the TypeScript source statement by statement.  DOM
`classList` state is modelled by booleans, the settings store by an
`Option Bool`, and the JavaScript `videos` array by a `List Video` (so that
`this.videos[i]` on an unresolved slot yields `none`, matching `undefined`).
Each event handler is a list of primitive actions; an action that dereferences
an unresolved video element fails, aborting the handler at that point, exactly
like the thrown `TypeError` in JavaScript.  Traces of intermediate states make
"transient" properties (pause-before-play) expressible.
-/

namespace Kando.Sidebar

/-! ## Visibility controller

State touched by `setVisibility` (sidebar.ts lines 60–79): the in-memory
`visible` flag (line 29), the `visible` CSS class on
`#kando-editor-sidebar-area`, `#hide-sidebar-button` and
`#show-sidebar-button`, and the settings-store key `sidebarVisible` written
through `window.api.appSettings.setKey`.  `settingsWrites` counts the
`setKey` calls so that "exactly one settings write" is expressible. -/

structure VisState where
  /-- The in-memory `this.visible` field (line 29, initialised `true`). -/
  visible : Bool
  /-- Whether `#kando-editor-sidebar-area` has the `visible` class. -/
  panelVisible : Bool
  /-- Whether `#hide-sidebar-button` has the `visible` class. -/
  hideBtnVisible : Bool
  /-- Whether `#show-sidebar-button` has the `visible` class. -/
  showBtnVisible : Bool
  /-- The settings-store entry for key `sidebarVisible`; `none` = unset. -/
  settings : Option Bool
  /-- Number of `setKey` calls performed so far. -/
  settingsWrites : Nat
deriving DecidableEq, Repr

/-- `setVisibility(visible)` from sidebar.ts lines 60–79: if the requested
value differs from `this.visible`, toggle the three `visible` classes
(add on area and hide-button, remove on show-button when showing; the
mirror image when hiding), update `this.visible`, and write the value to
the settings store; otherwise do nothing. -/
def setVisibility (s : VisState) (v : Bool) : VisState :=
  if s.visible ≠ v then
    { visible := v
      panelVisible := v
      hideBtnVisible := v
      showBtnVisible := !v
      settings := some v
      settingsWrites := s.settingsWrites + 1 }
  else
    s

/-- Modelled from the spec: the settings store (`window.api.appSettings`,
implemented in the main process, outside this source file) resolves
`getKey('sidebarVisible')` with the persisted value, and with the default
`true` when the key has never been set ("initialized from the Settings
Store at construction (default `true` if unset)"). -/
def getKeySidebarVisible (stored : Option Bool) : Bool :=
  stored.getD true

/-- Modelled from the spec: the construction-time state of the panel.  The
in-memory `visible` field is `true` (sidebar.ts line 29); the default markup
state of the templates (not part of this source file) renders the panel in
the open state, agreeing with the in-memory default, per the spec's
visibility invariant ("panel area visible iff `open`; show affordance
visible iff `!open`; hide affordance visible iff `open`").  `stored` is
whatever the settings store holds at that moment. -/
def initialVisState (stored : Option Bool) : VisState :=
  { visible := true
    panelVisible := true
    hideBtnVisible := true
    showBtnVisible := false
    settings := stored
    settingsWrites := 0 }

/-- The `initVisibility` fetch (sidebar.ts lines 178–181): asynchronously
read `sidebarVisible` and feed the result to `setVisibility`. -/
def initVisibilityFetch (s : VisState) : VisState :=
  setVisibility s (getKeySidebarVisible s.settings)

/-! ## Playback lifecycle manager

State touched by `initIntroductionVideos` (sidebar.ts lines 190–233): the
`videos` array of `HTMLVideoElement`s (line 35, initially empty), the
`lastVisibleVideo` index (line 41, initially 0), and the `{ once: true }`
listener on `show.bs.collapse` that resolves the five video elements.  A
video element carries the fields the handlers touch: `src`, `loop`,
`currentTime` and a playing flag. -/

structure Video where
  /-- Whether `src` has been assigned (line 199). -/
  srcSet : Bool
  /-- The `loop` property (line 202). -/
  loop : Bool
  /-- The `currentTime` position. -/
  currentTime : Nat
  /-- Whether the element is currently playing. -/
  playing : Bool
deriving DecidableEq, Repr

structure VideoState where
  /-- The `this.videos` array (line 35); a JavaScript index access outside
  the populated range yields `undefined`, i.e. `List.get?` yields `none`. -/
  videos : List Video
  /-- The `this.lastVisibleVideo` field (line 41). -/
  lastVisibleVideo : Nat
  /-- Whether the `{ once: true }` listener on `show.bs.collapse`
  (lines 192–206) has already fired and been removed. -/
  showOnceFired : Bool
deriving DecidableEq, Repr

/-- The state right after construction: `videos = []`, `lastVisibleVideo = 0`,
and the one-shot `show.bs.collapse` listener still armed. -/
def initVideoState : VideoState :=
  { videos := [], lastVisibleVideo := 0, showOnceFired := false }

/-- A freshly resolved video element: `src` assigned and `loop` enabled
(lines 196–202); the element in the template starts at position 0, not
playing. -/
def resolvedVideo : Video :=
  { srcSet := true, loop := true, currentTime := 0, playing := false }

/-- The primitive statements the four event handlers are built from.  The
`Current` forms read `this.lastVisibleVideo` at the moment they execute. -/
inductive VAction where
  /-- `this.videos[this.lastVisibleVideo].pause()` -/
  | pauseCurrent
  /-- `this.videos[this.lastVisibleVideo].currentTime = 0` -/
  | resetCurrent
  /-- `this.videos[this.lastVisibleVideo].play()` -/
  | playCurrent
  /-- `this.videos[k].currentTime = 0` -/
  | resetVideo (k : Nat)
  /-- `this.videos[k].play()` -/
  | playVideo (k : Nat)
  /-- `this.lastVisibleVideo = k` -/
  | setCurrent (k : Nat)
  /-- The body of the one-shot `show.bs.collapse` listener: populate all
  five slots of `this.videos` with resolved elements (lines 195–203); its
  `{ once: true }` registration removes the listener. -/
  | resolve
deriving DecidableEq, Repr

/-- Apply `f` to the video element at index `k`; `none` when the slot is
unpopulated (`this.videos[k]` is `undefined` and the member access throws). -/
def modifyVideo (s : VideoState) (k : Nat) (f : Video → Video) :
    Option VideoState :=
  match s.videos.get? k with
  | some v => some { s with videos := s.videos.set k (f v) }
  | none => none

/-- One primitive statement.  `none` means the statement threw a
`TypeError` (member access on `undefined`). -/
def runVAction (s : VideoState) : VAction → Option VideoState
  | .pauseCurrent => modifyVideo s s.lastVisibleVideo fun v => { v with playing := false }
  | .resetCurrent => modifyVideo s s.lastVisibleVideo fun v => { v with currentTime := 0 }
  | .playCurrent => modifyVideo s s.lastVisibleVideo fun v => { v with playing := true }
  | .resetVideo k => modifyVideo s k fun v => { v with currentTime := 0 }
  | .playVideo k => modifyVideo s k fun v => { v with playing := true }
  | .setCurrent k => some { s with lastVisibleVideo := k }
  | .resolve => some { s with videos := List.replicate 5 resolvedVideo, showOnceFired := true }

/-- The events the playback lifecycle manager reacts to.  `tabShow` is
Bootstrap's `show.bs.collapse` (start of the reveal), `tabShown` is
`shown.bs.collapse` (reveal finished), `tabHidden` is `hidden.bs.collapse`,
and `slideChange k` is `slide.bs.carousel` with `e.to = k`. -/
inductive VEvent where
  | tabShow
  | tabShown
  | tabHidden
  | slideChange (k : Nat)
deriving DecidableEq, Repr

/-- The statements each handler executes, in source order
(sidebar.ts lines 190–233). -/
def eventActions (s : VideoState) : VEvent → List VAction
  | .tabShow => if s.showOnceFired then [] else [.resolve]
  | .tabShown => [.resetCurrent, .playCurrent]
  | .tabHidden => [.pauseCurrent]
  | .slideChange k => [.pauseCurrent, .resetVideo k, .playVideo k, .setCurrent k]

/-- Run a list of statements; a thrown `TypeError` aborts the rest of the
handler, keeping the effects already performed.  The boolean records
whether the handler completed without error. -/
def runActs : VideoState → List VAction → VideoState × Bool
  | s, [] => (s, true)
  | s, a :: rest =>
    match runVAction s a with
    | some s' => runActs s' rest
    | none => (s, false)

/-- Deliver one event: run its handler. -/
def runEvent (s : VideoState) (e : VEvent) : VideoState × Bool :=
  runActs s (eventActions s e)

/-- Deliver a sequence of events; an exception in one handler does not
prevent later events from being delivered (the browser catches it). -/
def runEvents (s : VideoState) : List VEvent → VideoState
  | [] => s
  | e :: es => runEvents (runEvent s e).1 es

/-- All intermediate states of a statement list, starting state included;
the trace stops where an exception is thrown. -/
def actTrace : VideoState → List VAction → List VideoState
  | s, [] => [s]
  | s, a :: rest =>
    s :: (match runVAction s a with
      | some s' => actTrace s' rest
      | none => [])

/-- All intermediate states while one event's handler executes. -/
def eventTrace (s : VideoState) (e : VEvent) : List VideoState :=
  actTrace s (eventActions s e)

/-- Whether the video at index `i` is playing (`false` for an unpopulated
slot). -/
def playsAt (s : VideoState) (i : Nat) : Bool :=
  ((s.videos.get? i).map Video.playing).getD false

/-- The `currentTime` of the video at index `i`, when populated. -/
def ctAt (s : VideoState) (i : Nat) : Option Nat :=
  (s.videos.get? i).map Video.currentTime

/-- At most one video is in the playing state (indices beyond the array
length are never playing, so bounding the quantifiers keeps this
decidable without losing strength). -/
def atMostOnePlaying (s : VideoState) : Prop :=
  ∀ i, i < s.videos.length → ∀ j, j < s.videos.length →
    playsAt s i = true → playsAt s j = true → i = j

instance (s : VideoState) : Decidable (atMostOnePlaying s) := by
  unfold atMostOnePlaying; infer_instance

/-- Every playing video is the one at `lastVisibleVideo`: the inductive
invariant of the playback state machine. -/
def playingOnlyCurrent (s : VideoState) : Prop :=
  ∀ i, playsAt s i = true → i = s.lastVisibleVideo

/-- The state shape that holds forever once the one-shot resolution has run:
five populated video slots, a current index in range, and the one-shot
listener consumed. -/
def resolvedGood (s : VideoState) : Prop :=
  s.videos.length = 5 ∧ s.lastVisibleVideo < 5 ∧ s.showOnceFired = true

/-- The index the claim predicts after a sequence of events: the target of
the most recent slide-change, or the starting index when there is none. -/
def lastSlide : List VEvent → Nat → Nat
  | [], d => d
  | VEvent.slideChange k :: es, _ => lastSlide es k
  | _ :: es, d => lastSlide es d

/-- A concrete state for Scenario D: the tab is open, the five video
elements are resolved, clip 0 is playing (at some advanced position), and
`lastVisibleVideo = 0`. -/
def scenarioDState : VideoState :=
  { videos := { srcSet := true, loop := true, currentTime := 3, playing := true } ::
      List.replicate 4 resolvedVideo,
    lastVisibleVideo := 0,
    showOnceFired := true }

/-- A concrete state for Scenario C: clips resolved, clip 0 paused at an
advanced position (so that a reset is observable), `lastVisibleVideo = 0`. -/
def scenarioCState : VideoState :=
  { videos := { srcSet := true, loop := true, currentTime := 7, playing := false } ::
      List.replicate 4 resolvedVideo,
    lastVisibleVideo := 0,
    showOnceFired := true }

/-! ## Basic lemmas about the primitive statements -/

theorem playsAt_of_le (s : VideoState) (i : Nat) (h : s.videos.length ≤ i) :
    playsAt s i = false := by
  unfold playsAt
  rw [List.get?_eq_none.mpr h]
  rfl

theorem modifyVideo_some (s : VideoState) (k : Nat) (f : Video → Video)
    (s' : VideoState) (h : modifyVideo s k f = some s') :
    ∃ v, s.videos.get? k = some v ∧
      s' = { s with videos := s.videos.set k (f v) } := by
  unfold modifyVideo at h
  cases hv : s.videos.get? k with
  | none => rw [hv] at h; exact absurd h (by simp)
  | some v =>
    rw [hv] at h
    exact ⟨v, rfl, (Option.some.inj h).symm⟩

theorem modifyVideo_lastVisible (s : VideoState) (k : Nat) (f : Video → Video)
    (s' : VideoState) (h : modifyVideo s k f = some s') :
    s'.lastVisibleVideo = s.lastVisibleVideo := by
  obtain ⟨v, -, rfl⟩ := modifyVideo_some s k f s' h
  rfl

theorem modifyVideo_showOnce (s : VideoState) (k : Nat) (f : Video → Video)
    (s' : VideoState) (h : modifyVideo s k f = some s') :
    s'.showOnceFired = s.showOnceFired := by
  obtain ⟨v, -, rfl⟩ := modifyVideo_some s k f s' h
  rfl

theorem modifyVideo_length (s : VideoState) (k : Nat) (f : Video → Video)
    (s' : VideoState) (h : modifyVideo s k f = some s') :
    s'.videos.length = s.videos.length := by
  obtain ⟨v, -, rfl⟩ := modifyVideo_some s k f s' h
  simp

theorem modifyVideo_get? (s : VideoState) (k : Nat) (f : Video → Video)
    (s' : VideoState) (h : modifyVideo s k f = some s') (i : Nat) :
    s'.videos.get? i =
      if i = k then (s.videos.get? i).map f else s.videos.get? i := by
  obtain ⟨v, hv, rfl⟩ := modifyVideo_some s k f s' h
  by_cases hik : i = k
  · subst hik
    have hlt : i < s.videos.length := by
      by_contra hge
      rw [List.get?_eq_none.mpr (le_of_not_lt hge)] at hv
      exact absurd hv (by simp)
    simp only [if_pos rfl, hv, Option.map_some']
    show (s.videos.set i (f v)).get? i = some (f v)
    rw [List.get?_set_eq_of_lt]
    exact hlt
  · simp only [if_neg hik]
    exact List.get?_set_ne (f v) s.videos (Ne.symm hik)

theorem playsAt_modify_ne (s : VideoState) (k : Nat) (f : Video → Video)
    (s' : VideoState) (h : modifyVideo s k f = some s') (i : Nat) (hik : i ≠ k) :
    playsAt s' i = playsAt s i := by
  unfold playsAt
  rw [modifyVideo_get? s k f s' h i, if_neg hik]

theorem ctAt_modify_ne (s : VideoState) (k : Nat) (f : Video → Video)
    (s' : VideoState) (h : modifyVideo s k f = some s') (i : Nat) (hik : i ≠ k) :
    ctAt s' i = ctAt s i := by
  unfold ctAt
  rw [modifyVideo_get? s k f s' h i, if_neg hik]

theorem playsAt_pause_eq (s : VideoState) (k : Nat) (s' : VideoState)
    (h : modifyVideo s k (fun v => { v with playing := false }) = some s') :
    playsAt s' k = false := by
  obtain ⟨v, hv, -⟩ := modifyVideo_some s k _ s' h
  unfold playsAt
  rw [modifyVideo_get? s k _ s' h k, if_pos rfl, hv]
  rfl

theorem playsAt_play_eq (s : VideoState) (k : Nat) (s' : VideoState)
    (h : modifyVideo s k (fun v => { v with playing := true }) = some s') :
    playsAt s' k = true := by
  obtain ⟨v, hv, -⟩ := modifyVideo_some s k _ s' h
  unfold playsAt
  rw [modifyVideo_get? s k _ s' h k, if_pos rfl, hv]
  rfl

theorem playsAt_reset (s : VideoState) (k : Nat) (s' : VideoState)
    (h : modifyVideo s k (fun v => { v with currentTime := 0 }) = some s') (i : Nat) :
    playsAt s' i = playsAt s i := by
  by_cases hik : i = k
  · subst hik
    obtain ⟨v, hv, -⟩ := modifyVideo_some s i _ s' h
    unfold playsAt
    rw [modifyVideo_get? s i _ s' h i, if_pos rfl, hv]
    rfl
  · exact playsAt_modify_ne s k _ s' h i hik

theorem ctAt_pause (s : VideoState) (k : Nat) (s' : VideoState)
    (h : modifyVideo s k (fun v => { v with playing := false }) = some s') (i : Nat) :
    ctAt s' i = ctAt s i := by
  by_cases hik : i = k
  · subst hik
    obtain ⟨v, hv, -⟩ := modifyVideo_some s i _ s' h
    unfold ctAt
    rw [modifyVideo_get? s i _ s' h i, if_pos rfl, hv]
    rfl
  · exact ctAt_modify_ne s k _ s' h i hik

theorem ctAt_play (s : VideoState) (k : Nat) (s' : VideoState)
    (h : modifyVideo s k (fun v => { v with playing := true }) = some s') (i : Nat) :
    ctAt s' i = ctAt s i := by
  by_cases hik : i = k
  · subst hik
    obtain ⟨v, hv, -⟩ := modifyVideo_some s i _ s' h
    unfold ctAt
    rw [modifyVideo_get? s i _ s' h i, if_pos rfl, hv]
    rfl
  · exact ctAt_modify_ne s k _ s' h i hik

theorem ctAt_reset_eq (s : VideoState) (k : Nat) (s' : VideoState)
    (h : modifyVideo s k (fun v => { v with currentTime := 0 }) = some s') :
    ctAt s' k = some 0 := by
  obtain ⟨v, hv, -⟩ := modifyVideo_some s k _ s' h
  unfold ctAt
  rw [modifyVideo_get? s k _ s' h k, if_pos rfl, hv]
  rfl

theorem playsAt_resolve (s s' : VideoState) (h : runVAction s .resolve = some s')
    (i : Nat) : playsAt s' i = false := by
  unfold runVAction at h
  obtain rfl := Option.some.inj h
  unfold playsAt
  by_cases hi : i < 5
  · show (((List.replicate 5 resolvedVideo).get? i).map Video.playing).getD false = false
    rw [List.get?_eq_getElem?, List.getElem?_eq_getElem (by simpa using hi)]
    have : (List.replicate 5 resolvedVideo)[i] = resolvedVideo :=
      List.getElem_replicate ..
    rw [this]
    rfl
  · show (((List.replicate 5 resolvedVideo).get? i).map Video.playing).getD false = false
    rw [List.get?_eq_none.mpr (by simpa using le_of_not_lt hi)]
    rfl

/-! ## The playback invariant: every playing video is the current one -/

theorem atMostOne_of_onlyCurrent (s : VideoState) (h : playingOnlyCurrent s) :
    atMostOnePlaying s := by
  intro i _ j _ hi hj
  rw [h i hi, h j hj]

theorem playingOnlyCurrent_init : playingOnlyCurrent initVideoState := by
  intro i hi
  simp [playsAt, initVideoState] at hi

theorem invariant_tabShow (s : VideoState) (hs : playingOnlyCurrent s) :
    playingOnlyCurrent (runEvent s .tabShow).1 ∧
      ∀ t ∈ eventTrace s .tabShow, atMostOnePlaying t := by
  by_cases hf : s.showOnceFired
  · have he : eventActions s .tabShow = [] := by simp [eventActions, hf]
    refine ⟨?_, ?_⟩
    · simp only [runEvent, he, runActs]
      exact hs
    · intro t ht
      simp only [eventTrace, he, actTrace, List.mem_singleton] at ht
      subst ht
      exact atMostOne_of_onlyCurrent _ hs
  · have he : eventActions s .tabShow = [.resolve] := by simp [eventActions, hf]
    have h1 : runVAction s .resolve =
        some { s with videos := List.replicate 5 resolvedVideo, showOnceFired := true } := rfl
    have h2 : ∀ i, playsAt
        { s with videos := List.replicate 5 resolvedVideo, showOnceFired := true } i = false :=
      playsAt_resolve s _ h1
    refine ⟨?_, ?_⟩
    · simp only [runEvent, he, runActs, h1]
      intro i hi
      rw [h2 i] at hi
      exact absurd hi (by simp)
    · intro t ht
      simp only [eventTrace, he, actTrace, h1, List.mem_cons, List.mem_singleton,
        List.not_mem_nil, or_false] at ht
      rcases ht with rfl | rfl
      · exact atMostOne_of_onlyCurrent _ hs
      · intro i _ j _ hi hj
        rw [h2 i] at hi
        exact absurd hi (by simp)

theorem invariant_tabShown (s : VideoState) (hs : playingOnlyCurrent s) :
    playingOnlyCurrent (runEvent s .tabShown).1 ∧
      ∀ t ∈ eventTrace s .tabShown, atMostOnePlaying t := by
  have he : eventActions s .tabShown = [.resetCurrent, .playCurrent] := rfl
  cases h1 : runVAction s .resetCurrent with
  | none =>
    refine ⟨?_, ?_⟩
    · simp only [runEvent, he, runActs, h1]
      exact hs
    · intro t ht
      simp only [eventTrace, he, actTrace, h1, List.mem_singleton, List.mem_cons,
        List.not_mem_nil, or_false] at ht
      subst ht
      exact atMostOne_of_onlyCurrent _ hs
  | some s1 =>
    have hp1 : ∀ i, playsAt s1 i = playsAt s i := playsAt_reset s s.lastVisibleVideo s1 h1
    have hc1 : s1.lastVisibleVideo = s.lastVisibleVideo :=
      modifyVideo_lastVisible s s.lastVisibleVideo _ s1 h1
    have hs1 : playingOnlyCurrent s1 := by
      intro i hi
      rw [hp1 i] at hi
      rw [hc1]
      exact hs i hi
    cases h2 : runVAction s1 .playCurrent with
    | none =>
      refine ⟨?_, ?_⟩
      · simp only [runEvent, he, runActs, h1, h2]
        exact hs1
      · intro t ht
        simp only [eventTrace, he, actTrace, h1, h2, List.mem_cons, List.mem_singleton,
          List.not_mem_nil, or_false] at ht
        rcases ht with rfl | rfl
        · exact atMostOne_of_onlyCurrent _ hs
        · exact atMostOne_of_onlyCurrent _ hs1
    | some s2 =>
      have hc2 : s2.lastVisibleVideo = s1.lastVisibleVideo :=
        modifyVideo_lastVisible s1 s1.lastVisibleVideo _ s2 h2
      have hs2 : playingOnlyCurrent s2 := by
        intro i hi
        rw [hc2]
        by_cases hik : i = s1.lastVisibleVideo
        · exact hik
        · rw [playsAt_modify_ne s1 s1.lastVisibleVideo _ s2 h2 i hik] at hi
          exact hs1 i hi
      refine ⟨?_, ?_⟩
      · simp only [runEvent, he, runActs, h1, h2]
        exact hs2
      · intro t ht
        simp only [eventTrace, he, actTrace, h1, h2, List.mem_cons, List.mem_singleton,
          List.not_mem_nil, or_false] at ht
        rcases ht with rfl | rfl | rfl
        · exact atMostOne_of_onlyCurrent _ hs
        · exact atMostOne_of_onlyCurrent _ hs1
        · exact atMostOne_of_onlyCurrent _ hs2

theorem invariant_tabHidden (s : VideoState) (hs : playingOnlyCurrent s) :
    playingOnlyCurrent (runEvent s .tabHidden).1 ∧
      ∀ t ∈ eventTrace s .tabHidden, atMostOnePlaying t := by
  have he : eventActions s .tabHidden = [.pauseCurrent] := rfl
  cases h1 : runVAction s .pauseCurrent with
  | none =>
    refine ⟨?_, ?_⟩
    · simp only [runEvent, he, runActs, h1]
      exact hs
    · intro t ht
      simp only [eventTrace, he, actTrace, h1, List.mem_singleton, List.mem_cons,
        List.not_mem_nil, or_false] at ht
      subst ht
      exact atMostOne_of_onlyCurrent _ hs
  | some s1 =>
    have hnone : ∀ i, playsAt s1 i = false := by
      intro i
      by_cases hik : i = s.lastVisibleVideo
      · subst hik
        exact playsAt_pause_eq s s.lastVisibleVideo s1 h1
      · rw [playsAt_modify_ne s s.lastVisibleVideo _ s1 h1 i hik]
        by_cases hp : playsAt s i = true
        · exact absurd (hs i hp) hik
        · simpa using hp
    have hs1 : playingOnlyCurrent s1 := by
      intro i hi
      rw [hnone i] at hi
      exact absurd hi (by simp)
    refine ⟨?_, ?_⟩
    · simp only [runEvent, he, runActs, h1]
      exact hs1
    · intro t ht
      simp only [eventTrace, he, actTrace, h1, List.mem_cons, List.mem_singleton,
        List.not_mem_nil, or_false] at ht
      rcases ht with rfl | rfl
      · exact atMostOne_of_onlyCurrent _ hs
      · exact atMostOne_of_onlyCurrent _ hs1

theorem invariant_slideChange (s : VideoState) (hs : playingOnlyCurrent s) (k : Nat) :
    playingOnlyCurrent (runEvent s (.slideChange k)).1 ∧
      ∀ t ∈ eventTrace s (.slideChange k), atMostOnePlaying t := by
  have he : eventActions s (.slideChange k) =
      [.pauseCurrent, .resetVideo k, .playVideo k, .setCurrent k] := rfl
  cases h1 : runVAction s .pauseCurrent with
  | none =>
    refine ⟨?_, ?_⟩
    · simp only [runEvent, he, runActs, h1]
      exact hs
    · intro t ht
      simp only [eventTrace, he, actTrace, h1, List.mem_singleton, List.mem_cons,
        List.not_mem_nil, or_false] at ht
      subst ht
      exact atMostOne_of_onlyCurrent _ hs
  | some s1 =>
    have hnone1 : ∀ i, playsAt s1 i = false := by
      intro i
      by_cases hik : i = s.lastVisibleVideo
      · subst hik
        exact playsAt_pause_eq s s.lastVisibleVideo s1 h1
      · rw [playsAt_modify_ne s s.lastVisibleVideo _ s1 h1 i hik]
        by_cases hp : playsAt s i = true
        · exact absurd (hs i hp) hik
        · simpa using hp
    have hs1 : playingOnlyCurrent s1 := by
      intro i hi
      rw [hnone1 i] at hi
      exact absurd hi (by simp)
    cases h2 : runVAction s1 (.resetVideo k) with
    | none =>
      refine ⟨?_, ?_⟩
      · simp only [runEvent, he, runActs, h1, h2]
        exact hs1
      · intro t ht
        simp only [eventTrace, he, actTrace, h1, h2, List.mem_cons, List.mem_singleton,
          List.not_mem_nil, or_false] at ht
        rcases ht with rfl | rfl
        · exact atMostOne_of_onlyCurrent _ hs
        · exact atMostOne_of_onlyCurrent _ hs1
    | some s2 =>
      have hnone2 : ∀ i, playsAt s2 i = false := by
        intro i
        rw [playsAt_reset s1 k s2 h2 i]
        exact hnone1 i
      have hs2 : playingOnlyCurrent s2 := by
        intro i hi
        rw [hnone2 i] at hi
        exact absurd hi (by simp)
      cases h3 : runVAction s2 (.playVideo k) with
      | none =>
        refine ⟨?_, ?_⟩
        · simp only [runEvent, he, runActs, h1, h2, h3]
          exact hs2
        · intro t ht
          simp only [eventTrace, he, actTrace, h1, h2, h3, List.mem_cons,
            List.mem_singleton, List.not_mem_nil, or_false] at ht
          rcases ht with rfl | rfl | rfl
          · exact atMostOne_of_onlyCurrent _ hs
          · exact atMostOne_of_onlyCurrent _ hs1
          · exact atMostOne_of_onlyCurrent _ hs2
      | some s3 =>
        have honly3 : ∀ i, playsAt s3 i = true → i = k := by
          intro i hi
          by_cases hik : i = k
          · exact hik
          · rw [playsAt_modify_ne s2 k _ s3 h3 i hik, hnone2 i] at hi
            exact absurd hi (by simp)
        have h4 : runVAction s3 (.setCurrent k) =
            some { s3 with lastVisibleVideo := k } := rfl
        have hps4 : ∀ i, playsAt { s3 with lastVisibleVideo := k } i = playsAt s3 i :=
          fun i => rfl
        refine ⟨?_, ?_⟩
        · simp only [runEvent, he, runActs, h1, h2, h3, h4]
          intro i hi
          rw [hps4 i] at hi
          exact honly3 i hi
        · intro t ht
          simp only [eventTrace, he, actTrace, h1, h2, h3, h4, List.mem_cons,
            List.mem_singleton, List.not_mem_nil, or_false] at ht
          rcases ht with rfl | rfl | rfl | rfl | rfl
          · exact atMostOne_of_onlyCurrent _ hs
          · exact atMostOne_of_onlyCurrent _ hs1
          · exact atMostOne_of_onlyCurrent _ hs2
          · intro i _ j _ hi hj
            rw [honly3 i hi, honly3 j hj]
          · intro i _ j _ hi hj
            rw [hps4] at hi hj
            rw [honly3 i hi, honly3 j hj]

theorem invariant_step (s : VideoState) (hs : playingOnlyCurrent s) (e : VEvent) :
    playingOnlyCurrent (runEvent s e).1 ∧
      ∀ t ∈ eventTrace s e, atMostOnePlaying t := by
  cases e with
  | tabShow => exact invariant_tabShow s hs
  | tabShown => exact invariant_tabShown s hs
  | tabHidden => exact invariant_tabHidden s hs
  | slideChange k => exact invariant_slideChange s hs k

theorem playingOnlyCurrent_runEvents (s : VideoState) (hs : playingOnlyCurrent s)
    (es : List VEvent) : playingOnlyCurrent (runEvents s es) := by
  induction es generalizing s with
  | nil => exact hs
  | cons e es ih => exact ih (runEvent s e).1 (invariant_step s hs e).1

/-! ## Initialization: lazy one-shot resolution and reachable states -/

theorem modifyVideo_lt (s : VideoState) (k : Nat) (f : Video → Video)
    (s' : VideoState) (h : modifyVideo s k f = some s') : k < s.videos.length := by
  obtain ⟨v, hv, -⟩ := modifyVideo_some s k f s' h
  by_contra hge
  rw [List.get?_eq_none.mpr (le_of_not_lt hge)] at hv
  exact absurd hv (by simp)

theorem modifyVideo_some_of_lt (s : VideoState) (k : Nat) (f : Video → Video)
    (h : k < s.videos.length) : ∃ s', modifyVideo s k f = some s' := by
  unfold modifyVideo
  cases hv : s.videos.get? k with
  | none =>
    rw [List.get?_eq_none] at hv
    omega
  | some v => exact ⟨_, rfl⟩

/-- Before the one-shot resolution has run, every handler other than the
`show.bs.collapse` one throws on its first statement (`this.videos[0]` is
`undefined`) and leaves the state untouched. -/
theorem runEvent_init_not_show (e : VEvent) (he : e ≠ VEvent.tabShow) :
    runEvent initVideoState e = (initVideoState, false) := by
  cases e with
  | tabShow => exact absurd rfl he
  | tabShown => rfl
  | tabHidden => rfl
  | slideChange k => rfl

theorem runEvents_init_no_show (es : List VEvent)
    (h : ∀ e ∈ es, e ≠ VEvent.tabShow) :
    runEvents initVideoState es = initVideoState := by
  induction es with
  | nil => rfl
  | cons e es ih =>
    have h1 : runEvent initVideoState e = (initVideoState, false) :=
      runEvent_init_not_show e (h e (by simp))
    simp only [runEvents, h1]
    exact ih fun e' he' => h e' (List.mem_cons_of_mem e he')

theorem runEvent_tabShow_fired (s : VideoState) (h : s.showOnceFired = true) :
    runEvent s .tabShow = (s, true) := by
  simp [runEvent, eventActions, h, runActs]

theorem runEvent_tabShow_unfired (s : VideoState) (h : s.showOnceFired = false) :
    runEvent s .tabShow =
      ({ s with videos := List.replicate 5 resolvedVideo, showOnceFired := true },
        true) := by
  simp [runEvent, eventActions, h, runActs, runVAction]

theorem resolvedGood_step (s : VideoState) (hs : resolvedGood s) (e : VEvent) :
    resolvedGood (runEvent s e).1 := by
  obtain ⟨hlen, hcur, hf⟩ := hs
  cases e with
  | tabShow => rw [runEvent_tabShow_fired s hf]; exact ⟨hlen, hcur, hf⟩
  | tabShown =>
    cases h1 : runVAction s .resetCurrent with
    | none => simp only [runEvent, eventActions, runActs, h1]; exact ⟨hlen, hcur, hf⟩
    | some s1 =>
      have e1l := modifyVideo_length s s.lastVisibleVideo _ s1 h1
      have e1c := modifyVideo_lastVisible s s.lastVisibleVideo _ s1 h1
      have e1f := modifyVideo_showOnce s s.lastVisibleVideo _ s1 h1
      cases h2 : runVAction s1 .playCurrent with
      | none =>
        simp only [runEvent, eventActions, runActs, h1, h2]
        exact ⟨e1l.trans hlen, e1c ▸ hcur, e1f.trans hf⟩
      | some s2 =>
        have e2l := modifyVideo_length s1 s1.lastVisibleVideo _ s2 h2
        have e2c := modifyVideo_lastVisible s1 s1.lastVisibleVideo _ s2 h2
        have e2f := modifyVideo_showOnce s1 s1.lastVisibleVideo _ s2 h2
        simp only [runEvent, eventActions, runActs, h1, h2]
        exact ⟨(e2l.trans e1l).trans hlen, e2c ▸ e1c ▸ hcur, (e2f.trans e1f).trans hf⟩
  | tabHidden =>
    cases h1 : runVAction s .pauseCurrent with
    | none => simp only [runEvent, eventActions, runActs, h1]; exact ⟨hlen, hcur, hf⟩
    | some s1 =>
      have e1l := modifyVideo_length s s.lastVisibleVideo _ s1 h1
      have e1c := modifyVideo_lastVisible s s.lastVisibleVideo _ s1 h1
      have e1f := modifyVideo_showOnce s s.lastVisibleVideo _ s1 h1
      simp only [runEvent, eventActions, runActs, h1]
      exact ⟨e1l.trans hlen, e1c ▸ hcur, e1f.trans hf⟩
  | slideChange k =>
    cases h1 : runVAction s .pauseCurrent with
    | none => simp only [runEvent, eventActions, runActs, h1]; exact ⟨hlen, hcur, hf⟩
    | some s1 =>
      have e1l := modifyVideo_length s s.lastVisibleVideo _ s1 h1
      have e1c := modifyVideo_lastVisible s s.lastVisibleVideo _ s1 h1
      have e1f := modifyVideo_showOnce s s.lastVisibleVideo _ s1 h1
      cases h2 : runVAction s1 (.resetVideo k) with
      | none =>
        simp only [runEvent, eventActions, runActs, h1, h2]
        exact ⟨e1l.trans hlen, e1c ▸ hcur, e1f.trans hf⟩
      | some s2 =>
        have e2l := modifyVideo_length s1 k _ s2 h2
        have e2c := modifyVideo_lastVisible s1 k _ s2 h2
        have e2f := modifyVideo_showOnce s1 k _ s2 h2
        cases h3 : runVAction s2 (.playVideo k) with
        | none =>
          simp only [runEvent, eventActions, runActs, h1, h2, h3]
          exact ⟨(e2l.trans e1l).trans hlen, e2c ▸ e1c ▸ hcur, (e2f.trans e1f).trans hf⟩
        | some s3 =>
          have e3l := modifyVideo_length s2 k _ s3 h3
          have e3f := modifyVideo_showOnce s2 k _ s3 h3
          have hk : k < s2.videos.length := modifyVideo_lt s2 k _ s3 h3
          have h4 : runVAction s3 (.setCurrent k) =
              some { s3 with lastVisibleVideo := k } := rfl
          simp only [runEvent, eventActions, runActs, h1, h2, h3, h4]
          refine ⟨(e3l.trans (e2l.trans e1l)).trans hlen, ?_, (e3f.trans e2f).trans (e1f.trans hf)⟩
          show k < 5
          omega

theorem resolvedGood_runEvents (s : VideoState) (hs : resolvedGood s)
    (es : List VEvent) : resolvedGood (runEvents s es) := by
  induction es generalizing s with
  | nil => exact hs
  | cons e es ih => exact ih (runEvent s e).1 (resolvedGood_step s hs e)

theorem init_or_good_step (s : VideoState)
    (hs : s = initVideoState ∨ resolvedGood s) (e : VEvent) :
    (runEvent s e).1 = initVideoState ∨ resolvedGood (runEvent s e).1 := by
  rcases hs with rfl | hg
  · by_cases he : e = VEvent.tabShow
    · subst he
      rw [runEvent_tabShow_unfired initVideoState rfl]
      exact Or.inr ⟨by simp, by simp [initVideoState], rfl⟩
    · rw [runEvent_init_not_show e he]
      exact Or.inl rfl
  · exact Or.inr (resolvedGood_step s hg e)

theorem init_or_good_runEvents (s : VideoState)
    (hs : s = initVideoState ∨ resolvedGood s) (es : List VEvent) :
    runEvents s es = initVideoState ∨ resolvedGood (runEvents s es) := by
  induction es generalizing s with
  | nil => exact hs
  | cons e es ih => exact ih (runEvent s e).1 (init_or_good_step s hs e)

/-- Once a `show.bs.collapse` event has been delivered, the state is (and
stays) resolved. -/
theorem resolvedGood_of_show_mem (s : VideoState)
    (hs : s = initVideoState ∨ resolvedGood s) (es : List VEvent)
    (h : VEvent.tabShow ∈ es) : resolvedGood (runEvents s es) := by
  induction es generalizing s with
  | nil => exact absurd h (List.not_mem_nil _)
  | cons e es ih =>
    by_cases he : e = VEvent.tabShow
    · subst he
      have hg : resolvedGood (runEvent s .tabShow).1 := by
        rcases hs with rfl | hg
        · rw [runEvent_tabShow_unfired initVideoState rfl]
          exact ⟨by simp, by simp [initVideoState], rfl⟩
        · rw [runEvent_tabShow_fired s hg.2.2]
          exact hg
      exact resolvedGood_runEvents _ hg es
    · have hmem : VEvent.tabShow ∈ es := by
        rcases List.mem_cons.mp h with h' | h'
        · exact absurd h'.symm he
        · exact h'
      exact ih (runEvent s e).1 (init_or_good_step s hs e) hmem

/-! ## Effect lemmas for the individual handlers -/

theorem runEvent_tabShown_effect (s : VideoState)
    (hcur : s.lastVisibleVideo < s.videos.length) :
    (runEvent s .tabShown).2 = true ∧
      (runEvent s .tabShown).1.lastVisibleVideo = s.lastVisibleVideo ∧
      playsAt (runEvent s .tabShown).1 s.lastVisibleVideo = true ∧
      ctAt (runEvent s .tabShown).1 s.lastVisibleVideo = some 0 ∧
      ∀ i, i ≠ s.lastVisibleVideo →
        playsAt (runEvent s .tabShown).1 i = playsAt s i ∧
        ctAt (runEvent s .tabShown).1 i = ctAt s i := by
  obtain ⟨s1, h1⟩ := modifyVideo_some_of_lt s s.lastVisibleVideo
    (fun v => { v with currentTime := 0 }) hcur
  have h1' : runVAction s .resetCurrent = some s1 := h1
  have e1c : s1.lastVisibleVideo = s.lastVisibleVideo :=
    modifyVideo_lastVisible s s.lastVisibleVideo _ s1 h1
  have e1l : s1.videos.length = s.videos.length :=
    modifyVideo_length s s.lastVisibleVideo _ s1 h1
  obtain ⟨s2, h2⟩ := modifyVideo_some_of_lt s1 s1.lastVisibleVideo
    (fun v => { v with playing := true }) (by rw [e1c, e1l]; exact hcur)
  have h2' : runVAction s1 .playCurrent = some s2 := h2
  have hrun : runEvent s .tabShown = (s2, true) := by
    simp only [runEvent, eventActions, runActs, h1', h2']
  rw [hrun]
  refine ⟨rfl, ?_, ?_, ?_, ?_⟩
  · rw [modifyVideo_lastVisible s1 s1.lastVisibleVideo _ s2 h2, e1c]
  · have := playsAt_play_eq s1 s1.lastVisibleVideo s2 h2
    rwa [e1c] at this
  · have hct2 := ctAt_play s1 s1.lastVisibleVideo s2 h2 s.lastVisibleVideo
    have hct1 := ctAt_reset_eq s s.lastVisibleVideo s1 h1
    simp only [hct2, hct1]
  · intro i hi
    have hi1 : i ≠ s1.lastVisibleVideo := by rw [e1c]; exact hi
    constructor
    · rw [playsAt_modify_ne s1 s1.lastVisibleVideo _ s2 h2 i hi1,
        playsAt_reset s s.lastVisibleVideo s1 h1 i]
    · rw [ctAt_play s1 s1.lastVisibleVideo s2 h2 i,
        ctAt_modify_ne s s.lastVisibleVideo _ s1 h1 i hi]

theorem runEvent_tabHidden_effect (s : VideoState)
    (hcur : s.lastVisibleVideo < s.videos.length) :
    (runEvent s .tabHidden).2 = true ∧
      (runEvent s .tabHidden).1.lastVisibleVideo = s.lastVisibleVideo ∧
      (runEvent s .tabHidden).1.videos.length = s.videos.length ∧
      playsAt (runEvent s .tabHidden).1 s.lastVisibleVideo = false ∧
      (∀ i, ctAt (runEvent s .tabHidden).1 i = ctAt s i) ∧
      ∀ i, i ≠ s.lastVisibleVideo →
        playsAt (runEvent s .tabHidden).1 i = playsAt s i := by
  obtain ⟨s1, h1⟩ := modifyVideo_some_of_lt s s.lastVisibleVideo
    (fun v => { v with playing := false }) hcur
  have h1' : runVAction s .pauseCurrent = some s1 := h1
  have hrun : runEvent s .tabHidden = (s1, true) := by
    simp only [runEvent, eventActions, runActs, h1']
  rw [hrun]
  refine ⟨rfl, modifyVideo_lastVisible s s.lastVisibleVideo _ s1 h1,
    modifyVideo_length s s.lastVisibleVideo _ s1 h1,
    playsAt_pause_eq s s.lastVisibleVideo s1 h1,
    ctAt_pause s s.lastVisibleVideo s1 h1,
    fun i hi => playsAt_modify_ne s s.lastVisibleVideo _ s1 h1 i hi⟩

/-- The `shown.bs.collapse` handler never touches `lastVisibleVideo`. -/
theorem lastVisible_tabShown (s : VideoState) :
    (runEvent s .tabShown).1.lastVisibleVideo = s.lastVisibleVideo := by
  cases h1 : runVAction s .resetCurrent with
  | none => simp only [runEvent, eventActions, runActs, h1]
  | some s1 =>
    have e1c := modifyVideo_lastVisible s s.lastVisibleVideo _ s1 h1
    cases h2 : runVAction s1 .playCurrent with
    | none => simp only [runEvent, eventActions, runActs, h1, h2]; exact e1c
    | some s2 =>
      have e2c := modifyVideo_lastVisible s1 s1.lastVisibleVideo _ s2 h2
      simp only [runEvent, eventActions, runActs, h1, h2]
      exact e2c.trans e1c

/-- The `hidden.bs.collapse` handler never touches `lastVisibleVideo`. -/
theorem lastVisible_tabHidden (s : VideoState) :
    (runEvent s .tabHidden).1.lastVisibleVideo = s.lastVisibleVideo := by
  cases h1 : runVAction s .pauseCurrent with
  | none => simp only [runEvent, eventActions, runActs, h1]
  | some s1 =>
    simp only [runEvent, eventActions, runActs, h1]
    exact modifyVideo_lastVisible s s.lastVisibleVideo _ s1 h1

/-- The `show.bs.collapse` handler never touches `lastVisibleVideo`. -/
theorem lastVisible_tabShow (s : VideoState) :
    (runEvent s .tabShow).1.lastVisibleVideo = s.lastVisibleVideo := by
  by_cases hf : s.showOnceFired
  · rw [runEvent_tabShow_fired s hf]
  · rw [runEvent_tabShow_unfired s (by simpa using hf)]

/-- On a resolved state, the `slide.bs.carousel` handler with an in-range
target index `k` completes and sets `lastVisibleVideo` to `k`. -/
theorem runEvent_slideChange_lastVisible (s : VideoState) (hg : resolvedGood s)
    (k : Nat) (hk : k < 5) :
    (runEvent s (.slideChange k)).1.lastVisibleVideo = k ∧
      (runEvent s (.slideChange k)).2 = true := by
  obtain ⟨hlen, hcur, -⟩ := hg
  obtain ⟨s1, h1⟩ := modifyVideo_some_of_lt s s.lastVisibleVideo
    (fun v => { v with playing := false }) (by omega)
  have h1' : runVAction s .pauseCurrent = some s1 := h1
  have e1l := modifyVideo_length s s.lastVisibleVideo _ s1 h1
  obtain ⟨s2, h2⟩ := modifyVideo_some_of_lt s1 k
    (fun v => { v with currentTime := 0 }) (by omega)
  have h2' : runVAction s1 (.resetVideo k) = some s2 := h2
  have e2l := modifyVideo_length s1 k _ s2 h2
  obtain ⟨s3, h3⟩ := modifyVideo_some_of_lt s2 k
    (fun v => { v with playing := true }) (by omega)
  have h3' : runVAction s2 (.playVideo k) = some s3 := h3
  have h4 : runVAction s3 (.setCurrent k) = some { s3 with lastVisibleVideo := k } := rfl
  simp only [runEvent, eventActions, runActs, h1', h2', h3', h4]
  simp

theorem runEvents_lastSlide (s : VideoState) (hg : resolvedGood s)
    (es : List VEvent) (hk : ∀ k, VEvent.slideChange k ∈ es → k < 5) :
    (runEvents s es).lastVisibleVideo = lastSlide es s.lastVisibleVideo := by
  induction es generalizing s with
  | nil => rfl
  | cons e es ih =>
    have hg' : resolvedGood (runEvent s e).1 := resolvedGood_step s hg e
    have hk' : ∀ k, VEvent.slideChange k ∈ es → k < 5 :=
      fun k hkm => hk k (List.mem_cons_of_mem e hkm)
    cases e with
    | tabShow =>
      show (runEvents (runEvent s .tabShow).1 es).lastVisibleVideo =
        lastSlide es s.lastVisibleVideo
      rw [ih (runEvent s .tabShow).1 hg' hk', lastVisible_tabShow]
    | tabShown =>
      show (runEvents (runEvent s .tabShown).1 es).lastVisibleVideo =
        lastSlide es s.lastVisibleVideo
      rw [ih (runEvent s .tabShown).1 hg' hk', lastVisible_tabShown]
    | tabHidden =>
      show (runEvents (runEvent s .tabHidden).1 es).lastVisibleVideo =
        lastSlide es s.lastVisibleVideo
      rw [ih (runEvent s .tabHidden).1 hg' hk', lastVisible_tabHidden]
    | slideChange k =>
      have hk5 : k < 5 := hk k (by simp)
      show (runEvents (runEvent s (.slideChange k)).1 es).lastVisibleVideo =
        lastSlide es k
      rw [ih (runEvent s (.slideChange k)).1 hg' hk',
        (runEvent_slideChange_lastVisible s hg k hk5).1]

/-! ## Claims about the visibility controller -/

/-- C2: `setVisibility` is idempotent: if the requested value equals the
current in-memory value the call is a no-op (no view-tree mutation, no
settings write, in-memory value unchanged); calling it twice in a row with
the same value produces exactly one set of visual changes (the second call
changes nothing) and exactly one settings write. -/
theorem claim_C2_setVisibility_idempotent (s : VisState) (v : Bool) :
    (s.visible = v → setVisibility s v = s) ∧
      setVisibility (setVisibility s v) v = setVisibility s v ∧
      (s.visible ≠ v → (setVisibility s v).settingsWrites = s.settingsWrites + 1) := by
  unfold setVisibility
  by_cases h : s.visible = v <;> simp [h]

theorem claim_C2_witness :
    setVisibility (initialVisState none) true = initialVisState none ∧
      setVisibility (setVisibility (initialVisState none) false) false =
        setVisibility (initialVisState none) false ∧
      (setVisibility (initialVisState none) false).settingsWrites =
        (initialVisState none).settingsWrites + 1 :=
  ⟨(claim_C2_setVisibility_idempotent (initialVisState none) true).1 rfl,
    (claim_C2_setVisibility_idempotent (initialVisState none) false).2.1,
    (claim_C2_setVisibility_idempotent (initialVisState none) false).2.2 (by decide)⟩

/-- C4: when the requested value differs from the current in-memory value,
`setVisibility open` toggles the three visibility-linked elements (panel
area has `visible` iff `open`, hide button iff `open`, show button iff not
`open`), updates the in-memory value, and writes `open` to the settings
store under `sidebarVisible`. -/
theorem claim_C4_setVisibility_change (s : VisState) (v : Bool)
    (h : s.visible ≠ v) :
    (setVisibility s v).panelVisible = v ∧
      (setVisibility s v).hideBtnVisible = v ∧
      (setVisibility s v).showBtnVisible = !v ∧
      (setVisibility s v).visible = v ∧
      (setVisibility s v).settings = some v := by
  simp [setVisibility, h]

/-- Scenario B: panel open, `setVisibility(false)` closes everything and
persists `false`. -/
theorem claim_C4_witness :
    (setVisibility (initialVisState (some true)) false).panelVisible = false ∧
      (setVisibility (initialVisState (some true)) false).hideBtnVisible = false ∧
      (setVisibility (initialVisState (some true)) false).showBtnVisible = !false ∧
      (setVisibility (initialVisState (some true)) false).visible = false ∧
      (setVisibility (initialVisState (some true)) false).settings = some false :=
  claim_C4_setVisibility_change (initialVisState (some true)) false (by decide)

/-- C5: round-trip with the settings store: assuming the store agrees with
the in-memory value (the state after any completed change), `setVisibility v`
followed by reading the persisted key yields `v` — either the call wrote
`v`, or the values already agreed. -/
theorem claim_C5_roundtrip (s : VisState) (v : Bool)
    (h : s.settings = some s.visible) :
    (setVisibility s v).settings = some v := by
  unfold setVisibility
  by_cases hv : s.visible = v
  · rw [if_neg (by simp [hv]), h, hv]
  · rw [if_pos (by simp [hv])]

/-- The no-write case of the round-trip, at a concrete agreeing state. -/
theorem claim_C5_witness :
    (setVisibility (initialVisState (some true)) true).settings = some true :=
  claim_C5_roundtrip (initialVisState (some true)) true rfl

/-- C8: fresh panel with no persisted `sidebarVisible` entry: once the
initial asynchronous `getKey` fetch resolves (with the default `true`), the
visibility state is `true` both in memory and in the view-tree toggles. -/
theorem claim_C8_default_visible :
    (initVisibilityFetch (initialVisState none)).visible = true ∧
      (initVisibilityFetch (initialVisState none)).panelVisible = true ∧
      (initVisibilityFetch (initialVisState none)).hideBtnVisible = true ∧
      (initVisibilityFetch (initialVisState none)).showBtnVisible = false := by
  decide

/-! ## Claims about the playback lifecycle manager -/

/-- C1: for every sequence of tab-show, tab-shown, tab-hidden and
slide-change events delivered after initialization, at no point — even
transiently inside a single event handler — are two clips simultaneously in
the playing state: every intermediate state of every handler run from a
reachable state has at most one playing video. -/
theorem claim_C1_mutual_exclusion (es : List VEvent) (e : VEvent)
    (t : VideoState)
    (ht : t ∈ eventTrace (runEvents initVideoState es) e) :
    atMostOnePlaying t :=
  (invariant_step (runEvents initVideoState es)
    (playingOnlyCurrent_runEvents initVideoState playingOnlyCurrent_init es)
    e).2 t ht

theorem claim_C1_witness :
    (eventTrace (runEvents initVideoState [VEvent.tabShow, VEvent.tabShown])
        (VEvent.slideChange 2)).getD 3 initVideoState ∈
      eventTrace (runEvents initVideoState [VEvent.tabShow, VEvent.tabShown])
        (VEvent.slideChange 2) ∧
    atMostOnePlaying
      ((eventTrace (runEvents initVideoState [VEvent.tabShow, VEvent.tabShown])
          (VEvent.slideChange 2)).getD 3 initVideoState) :=
  ⟨by decide,
    claim_C1_mutual_exclusion [VEvent.tabShow, VEvent.tabShown]
      (VEvent.slideChange 2) _ (by decide)⟩

/-- C3: on a resolved state, the slide-change handler for target slide `k`
performs, in this order, pause of the current clip, reset of clip `k` to
`currentTime = 0`, playback of clip `k`, and the assignment
`lastVisibleVideo = k`; afterwards clip `k` is playing from its start,
`lastVisibleVideo = k`, and the previously current clip (when different
from `k`) is paused. -/
theorem claim_C3_slideChange_order (s : VideoState) (k : Nat)
    (hg : resolvedGood s) (hk : k < 5) :
    eventActions s (.slideChange k) =
      [.pauseCurrent, .resetVideo k, .playVideo k, .setCurrent k] ∧
    ∃ s1 s2 s3,
      runVAction s .pauseCurrent = some s1 ∧
      runVAction s1 (.resetVideo k) = some s2 ∧
      runVAction s2 (.playVideo k) = some s3 ∧
      runEvent s (.slideChange k) = ({ s3 with lastVisibleVideo := k }, true) ∧
      playsAt s1 s.lastVisibleVideo = false ∧
      ctAt s2 k = some 0 ∧
      playsAt s3 k = true ∧
      (runEvent s (.slideChange k)).1.lastVisibleVideo = k ∧
      playsAt (runEvent s (.slideChange k)).1 k = true ∧
      ctAt (runEvent s (.slideChange k)).1 k = some 0 ∧
      (s.lastVisibleVideo ≠ k →
        playsAt (runEvent s (.slideChange k)).1 s.lastVisibleVideo = false) := by
  obtain ⟨hlen, hcur, -⟩ := hg
  obtain ⟨s1, h1⟩ := modifyVideo_some_of_lt s s.lastVisibleVideo
    (fun v => { v with playing := false }) (by omega)
  have h1' : runVAction s .pauseCurrent = some s1 := h1
  have e1l := modifyVideo_length s s.lastVisibleVideo _ s1 h1
  obtain ⟨s2, h2⟩ := modifyVideo_some_of_lt s1 k
    (fun v => { v with currentTime := 0 }) (by omega)
  have h2' : runVAction s1 (.resetVideo k) = some s2 := h2
  have e2l := modifyVideo_length s1 k _ s2 h2
  obtain ⟨s3, h3⟩ := modifyVideo_some_of_lt s2 k
    (fun v => { v with playing := true }) (by omega)
  have h3' : runVAction s2 (.playVideo k) = some s3 := h3
  have h4 : runVAction s3 (.setCurrent k) =
      some { s3 with lastVisibleVideo := k } := rfl
  have hrun : runEvent s (.slideChange k) =
      ({ s3 with lastVisibleVideo := k }, true) := by
    simp only [runEvent, eventActions, runActs, h1', h2', h3', h4]
  refine ⟨rfl, s1, s2, s3, h1', h2', h3', hrun, ?_, ?_, ?_, ?_, ?_, ?_, ?_⟩
  · exact playsAt_pause_eq s s.lastVisibleVideo s1 h1
  · exact ctAt_reset_eq s1 k s2 h2
  · exact playsAt_play_eq s2 k s3 h3
  · rw [hrun]
  · rw [hrun]
    show playsAt s3 k = true
    exact playsAt_play_eq s2 k s3 h3
  · rw [hrun]
    show ctAt s3 k = some 0
    rw [ctAt_play s2 k s3 h3 k]
    exact ctAt_reset_eq s1 k s2 h2
  · intro hne
    rw [hrun]
    show playsAt s3 s.lastVisibleVideo = false
    rw [playsAt_modify_ne s2 k _ s3 h3 s.lastVisibleVideo hne,
      playsAt_reset s1 k s2 h2 s.lastVisibleVideo]
    exact playsAt_pause_eq s s.lastVisibleVideo s1 h1

/-- Scenario D: slide-change to index 2 while clip 0 is playing pauses
clip 0, plays clip 2 from its start, and makes `lastVisibleVideo` equal 2. -/
theorem claim_C3_witness :
    (runEvent scenarioDState (.slideChange 2)).1.lastVisibleVideo = 2 ∧
      playsAt (runEvent scenarioDState (.slideChange 2)).1 2 = true ∧
      ctAt (runEvent scenarioDState (.slideChange 2)).1 2 = some 0 ∧
      playsAt (runEvent scenarioDState (.slideChange 2)).1 0 = false := by
  have h := claim_C3_slideChange_order scenarioDState 2 ⟨rfl, by decide, rfl⟩
    (by decide)
  obtain ⟨-, s1, s2, s3, -, -, -, -, -, -, -, hcur, hplay, hct, hpause⟩ := h
  exact ⟨hcur, hplay, hct, hpause (by decide)⟩

/-- C6: clip resolution is lazy and one-shot: before the first tab-show the
video array stays empty (any other event sequence leaves the constructed
state untouched); the first tab-show populates all five slots with resolved,
loop-enabled elements and consumes the one-shot listener; once the listener
is consumed a tab-show performs nothing. -/
theorem claim_C6_lazy_one_shot :
    (∀ es, (∀ e ∈ es, e ≠ VEvent.tabShow) →
      runEvents initVideoState es = initVideoState) ∧
    (∀ s : VideoState, s.showOnceFired = false →
      runEvent s .tabShow =
        ({ s with
            videos := List.replicate 5 resolvedVideo
            showOnceFired := true }, true)) ∧
    (∀ s : VideoState, s.showOnceFired = true → runEvent s .tabShow = (s, true)) ∧
    (∀ v ∈ List.replicate 5 resolvedVideo, v.srcSet = true ∧ v.loop = true) := by
  refine ⟨runEvents_init_no_show, runEvent_tabShow_unfired,
    runEvent_tabShow_fired, ?_⟩
  intro v hv
  rw [List.eq_of_mem_replicate hv]
  exact ⟨rfl, rfl⟩

theorem claim_C6_witness :
    runEvents initVideoState
        [VEvent.tabShown, VEvent.tabHidden, VEvent.slideChange 1] =
      initVideoState ∧
    runEvent initVideoState .tabShow =
      ({ initVideoState with
          videos := List.replicate 5 resolvedVideo
          showOnceFired := true }, true) ∧
    runEvent (runEvent initVideoState .tabShow).1 .tabShow =
      ((runEvent initVideoState .tabShow).1, true) :=
  ⟨claim_C6_lazy_one_shot.1 _ (by decide),
    claim_C6_lazy_one_shot.2.1 _ rfl,
    claim_C6_lazy_one_shot.2.2.1 _ (by decide)⟩

/-- C7: when the tab transitions to shown, the clip at `lastVisibleVideo` is
reset to its start and begins playing; when the tab transitions to hidden,
that clip is paused and no clip's position is reset; a subsequent tab-shown
resets the clip to its start and plays it again instead of resuming. -/
theorem claim_C7_show_hide (s : VideoState)
    (hcur : s.lastVisibleVideo < s.videos.length) :
    (playsAt (runEvent s .tabShown).1 s.lastVisibleVideo = true ∧
      ctAt (runEvent s .tabShown).1 s.lastVisibleVideo = some 0) ∧
    (playsAt (runEvent s .tabHidden).1 s.lastVisibleVideo = false ∧
      (∀ i, ctAt (runEvent s .tabHidden).1 i = ctAt s i)) ∧
    (playsAt (runEvent (runEvent s .tabHidden).1 .tabShown).1
        s.lastVisibleVideo = true ∧
      ctAt (runEvent (runEvent s .tabHidden).1 .tabShown).1
        s.lastVisibleVideo = some 0) := by
  obtain ⟨-, -, hshp, hshc, -⟩ := runEvent_tabShown_effect s hcur
  obtain ⟨-, hhdc, hhdl, hhdp, hhdct, -⟩ := runEvent_tabHidden_effect s hcur
  have hcur' : (runEvent s .tabHidden).1.lastVisibleVideo <
      (runEvent s .tabHidden).1.videos.length := by
    rw [hhdc, hhdl]
    exact hcur
  obtain ⟨-, -, hshp2, hshc2, -⟩ :=
    runEvent_tabShown_effect (runEvent s .tabHidden).1 hcur'
  rw [hhdc] at hshp2 hshc2
  exact ⟨⟨hshp, hshc⟩, ⟨hhdp, hhdct⟩, hshp2, hshc2⟩

/-- Scenario C at a concrete state: clip 0 (paused at position 7) resets and
plays on tab-shown; on tab-hidden it pauses with its position intact; a
second tab-shown resets it to the start again. -/
theorem claim_C7_witness :
    (playsAt (runEvent scenarioCState .tabShown).1 0 = true ∧
      ctAt (runEvent scenarioCState .tabShown).1 0 = some 0) ∧
    (playsAt (runEvent scenarioCState .tabHidden).1 0 = false ∧
      ctAt (runEvent scenarioCState .tabHidden).1 0 = ctAt scenarioCState 0) ∧
    (playsAt (runEvent (runEvent scenarioCState .tabHidden).1 .tabShown).1 0 =
        true ∧
      ctAt (runEvent (runEvent scenarioCState .tabHidden).1 .tabShown).1 0 =
        some 0) := by
  have h := claim_C7_show_hide scenarioCState (by decide)
  exact ⟨⟨h.1.1, h.1.2⟩, ⟨h.2.1.1, h.2.1.2 0⟩, h.2.2.1, h.2.2.2⟩

/-- C9 counterexample: delivered at the freshly constructed state, before
any clip has been resolved, the tab-hidden handler does not complete: the
member access `this.videos[this.lastVisibleVideo].pause()` dereferences
`undefined` and throws, so the handler aborts with an error. -/
theorem claim_C9_counterexample :
    initVideoState.videos = [] ∧
      (runEvent initVideoState .tabHidden).2 = false := by
  decide

/-- C9 amended: if the tab-hidden event fires before the one-shot
resolution has run, the handler throws (pause on an unresolved slot is not
a no-op); but after any tab-show event — which is what actually resolves
the clips, and which necessarily precedes a hidden transition — the
tab-hidden handler completes without error. -/
theorem claim_C9_hidden_safe_after_show (es : List VEvent)
    (h : VEvent.tabShow ∈ es) :
    (runEvent (runEvents initVideoState es) .tabHidden).2 = true := by
  obtain ⟨hlen, hcur, -⟩ :=
    resolvedGood_of_show_mem initVideoState (Or.inl rfl) es h
  exact (runEvent_tabHidden_effect (runEvents initVideoState es) (by omega)).1

theorem claim_C9_witness :
    (runEvent (runEvents initVideoState [VEvent.tabShow]) .tabHidden).2 =
      true :=
  claim_C9_hidden_safe_after_show [VEvent.tabShow] (by decide)

/-- C10 counterexample: the consequence of the claim fails for an
interleaving in which a slide-change is delivered before the first
tab-show: the slide handler throws before reaching the index assignment, so
after `slideChange 3, tabShow, tabShown` the clip that resets and plays is
clip 0, not clip 3 as the most recent slide-change reported. -/
theorem claim_C10_counterexample :
    (runEvents initVideoState
        [VEvent.slideChange 3, VEvent.tabShow, VEvent.tabShown]).lastVisibleVideo
      = 0 ∧
    playsAt (runEvents initVideoState
        [VEvent.slideChange 3, VEvent.tabShow, VEvent.tabShown]) 3 = false ∧
    playsAt (runEvents initVideoState
        [VEvent.slideChange 3, VEvent.tabShow, VEvent.tabShown]) 0 = true := by
  decide

/-- C10 amended: the tab-show, tab-shown and tab-hidden handlers leave
`lastVisibleVideo` unchanged in every state; and for event sequences
delivered after the clips have been resolved (i.e. after the first
tab-show) whose slide-change targets are in range, the final
`lastVisibleVideo` is the index reported by the most recent slide-change
(or the prior index if none occurred), and a subsequent tab-shown resets
and plays exactly that clip. -/
theorem claim_C10_frame_lastVisible (s : VideoState) (hg : resolvedGood s)
    (es : List VEvent) (hk : ∀ k, VEvent.slideChange k ∈ es → k < 5) :
    (∀ u : VideoState,
      (runEvent u .tabShown).1.lastVisibleVideo = u.lastVisibleVideo) ∧
    (∀ u : VideoState,
      (runEvent u .tabHidden).1.lastVisibleVideo = u.lastVisibleVideo) ∧
    (∀ u : VideoState,
      (runEvent u .tabShow).1.lastVisibleVideo = u.lastVisibleVideo) ∧
    (runEvents s es).lastVisibleVideo = lastSlide es s.lastVisibleVideo ∧
    playsAt (runEvent (runEvents s es) .tabShown).1
        (lastSlide es s.lastVisibleVideo) = true ∧
    ctAt (runEvent (runEvents s es) .tabShown).1
        (lastSlide es s.lastVisibleVideo) = some 0 := by
  have hfin : resolvedGood (runEvents s es) := resolvedGood_runEvents s hg es
  obtain ⟨hlen, hcur, -⟩ := hfin
  have hls : (runEvents s es).lastVisibleVideo = lastSlide es s.lastVisibleVideo :=
    runEvents_lastSlide s hg es hk
  obtain ⟨-, -, hp, hc, -⟩ :=
    runEvent_tabShown_effect (runEvents s es) (by omega)
  rw [hls] at hp hc
  exact ⟨lastVisible_tabShown, lastVisible_tabHidden, lastVisible_tabShow,
    hls, hp, hc⟩

/-- After hide and re-show following a slide-change to 2, the clip that
resets and plays is clip 2. -/
theorem claim_C10_witness :
    (runEvent scenarioCState .tabShown).1.lastVisibleVideo =
      scenarioCState.lastVisibleVideo ∧
    (runEvent scenarioCState .tabHidden).1.lastVisibleVideo =
      scenarioCState.lastVisibleVideo ∧
    (runEvent scenarioCState .tabShow).1.lastVisibleVideo =
      scenarioCState.lastVisibleVideo ∧
    (runEvents scenarioDState
        [VEvent.slideChange 2, VEvent.tabHidden, VEvent.tabShow]).lastVisibleVideo
      = 2 ∧
    playsAt (runEvent (runEvents scenarioDState
        [VEvent.slideChange 2, VEvent.tabHidden, VEvent.tabShow])
        VEvent.tabShown).1 2 = true := by
  have h := claim_C10_frame_lastVisible scenarioDState ⟨rfl, by decide, rfl⟩
    [VEvent.slideChange 2, VEvent.tabHidden, VEvent.tabShow]
    (by intro k hkm; simp at hkm; omega)
  exact ⟨h.1 scenarioCState, h.2.1 scenarioCState, h.2.2.1 scenarioCState,
    h.2.2.2.1, h.2.2.2.2.1⟩

end Kando.Sidebar
